import Mathlib

/-!
Verification of the metered-rs core against its specification.

The development shallowly embeds the two source files:
  * `src/metered-macro/src/metered.rs` — the `metered` macro driver, the
    registry code generator and the metric injection strategy `measure_list`;
  * `src/metered/src/hdr_histogram.rs` — the saturating HDR histogram metric
    and its exclusive-access wrapper `AtomicHdrHistogram`.

Generated Rust token streams are modelled by the inductive `Tokens`;
collaborator crates that are not under `src/` (`measure_opts`, `metered_opts`,
`aspect_weave`, `heck`, `hdrhistogram`, `atomic_refcell`) are modelled from the
specification, each such definition carrying a doc comment that says so.
-/

namespace MeteredRs

/-- Modelled from the spec: a metric request as produced by the external
Attribute Model (`measure_opts.rs`, not under `src/`): a storage field name and
a generated type reference.  In this repository the identifier used for the
sub-registry field and for the measure-wrapper variable (`MetricRequest::ident`)
and the local binding variable are all derived from `field_name`, so the
spec's `binding_name` coincides with `field_name`. -/
structure MetricRequest where
  field_name : String
  generated_type : String
  deriving Repr, DecidableEq

/-- Modelled from the spec: `MetricRequest::ident()` (in `measure_opts.rs`, not
under `src/`) returns the request's field name as an identifier. -/
def MetricRequest.ident (m : MetricRequest) : String := m.field_name

/-- Modelled from the spec: the local binding name the Attribute Model supplies
for a request; in this repository it coincides with `field_name`. -/
def MetricRequest.binding_name (m : MetricRequest) : String := m.field_name

/-- Modelled from the spec: one instance of the per-method `measure` annotation
(`MeasureRequestAttribute` in `measure_opts.rs`, not under `src/`); it explodes
into an ordered list of metric requests via `to_requests`. -/
structure MeasureRequestAttribute where
  requests : List MetricRequest
  deriving Repr, DecidableEq

/-- Modelled from the spec: `MeasureRequestAttribute::to_requests` yields the
instance's ordered request list. -/
def MeasureRequestAttribute.to_requests (a : MeasureRequestAttribute) :
    List MetricRequest := a.requests

/-- The Rust token streams produced by the macro, kept structural: the original
body tokens are an `atom`, `measure v inner` is `metered::measure! α v, inner β`
(α, β standing for the braces of the macro invocation), `letBind v r f fld
inner` is `let v = &r.f.fld; inner`, and `braces inner` is `α inner β`. -/
inductive Tokens where
  | atom (s : String)
  | measure (var : String) (inner : Tokens)
  | letBind (var : String) (registry : String) (fn : String) (field : String) (inner : Tokens)
  | braces (inner : Tokens)
  deriving Repr, DecidableEq

/-- All metric requests of a method in declaration order: attribute-instance
order, then request order within an instance (the iteration order of the two
nested loops in `measure_list`, `metered.rs` lines 129-137 and 141-156). -/
def flatten_requests (attrs : List MeasureRequestAttribute) : List MetricRequest :=
  (attrs.map MeasureRequestAttribute.to_requests).flatten

/-- The wrap pass of `measure_list` (`metered.rs` lines 128-138): for every
attribute instance, for every metric request, rewrap the current tokens in
`metered::measure! α ident, inner β`. -/
def wrap_pass (attrs : List MeasureRequestAttribute) (expr : Tokens) : Tokens :=
  attrs.foldl
    (fun inner a =>
      a.to_requests.foldl (fun i m => Tokens.measure m.ident i) inner)
    expr

/-- The bind pass of `measure_list` (`metered.rs` lines 140-156): for every
attribute instance, for every metric request, prepend
`let field_name = &registry_expr.fun_ident.field_name;` in front of the
current tokens. -/
def bind_pass (registry_expr fun_ident : String)
    (attrs : List MeasureRequestAttribute) (expr : Tokens) : Tokens :=
  attrs.foldl
    (fun inner a =>
      a.to_requests.foldl
        (fun i m => Tokens.letBind m.field_name registry_expr fun_ident m.field_name i)
        inner)
    expr

/-- `measure_list` (`metered.rs` lines 120-166): wrap pass, then bind pass,
then one final pair of braces. -/
def measure_list (registry_expr : String) (fun_ident : String)
    (attrs : List MeasureRequestAttribute) (expr : Tokens) : Tokens :=
  Tokens.braces (bind_pass registry_expr fun_ident attrs (wrap_pass attrs expr))

/-- Spec-side shape: nested measure wrappers with the FIRST request of the list
outermost (`nestMeasures [r1, ..., rn] b = measure r1 (... (measure rn b))`). -/
def nestMeasures : List MetricRequest → Tokens → Tokens
  | [], body => body
  | r :: rs, body => Tokens.measure r.binding_name (nestMeasures rs body)

/-- Spec-side shape: nested let-bindings with the FIRST request of the list
outermost, each aliasing the binding name to
`registry_expr.fun_ident.field_name`. -/
def nestLets (registry_expr fun_ident : String) : List MetricRequest → Tokens → Tokens
  | [], body => body
  | r :: rs, body =>
      Tokens.letBind r.binding_name registry_expr fun_ident r.field_name
        (nestLets registry_expr fun_ident rs body)

/-- The chain of let-bindings at the head of a token stream, braces peeled,
each entry being (bound variable, registry expression, method name, field). -/
def collectBinds : Tokens → List (String × String × String × String)
  | Tokens.braces inner => collectBinds inner
  | Tokens.letBind v r f fld inner => (v, r, f, fld) :: collectBinds inner
  | _ => []

lemma nestMeasures_append (l₁ l₂ : List MetricRequest) (b : Tokens) :
    nestMeasures (l₁ ++ l₂) b = nestMeasures l₁ (nestMeasures l₂ b) := by
  induction l₁ with
  | nil => rfl
  | cons r rs ih => simp [nestMeasures, ih]

lemma nestLets_append (re fn : String) (l₁ l₂ : List MetricRequest) (b : Tokens) :
    nestLets re fn (l₁ ++ l₂) b = nestLets re fn l₁ (nestLets re fn l₂ b) := by
  induction l₁ with
  | nil => rfl
  | cons r rs ih => simp [nestLets, ih]

lemma foldl_measure_eq_nest (l : List MetricRequest) (b : Tokens) :
    l.foldl (fun i m => Tokens.measure m.ident i) b = nestMeasures l.reverse b := by
  induction l generalizing b with
  | nil => rfl
  | cons r rs ih =>
      rw [List.foldl_cons, ih, List.reverse_cons, nestMeasures_append]
      rfl

lemma foldl_let_eq_nest (re fn : String) (l : List MetricRequest) (b : Tokens) :
    l.foldl (fun i m => Tokens.letBind m.field_name re fn m.field_name i) b
      = nestLets re fn l.reverse b := by
  induction l generalizing b with
  | nil => rfl
  | cons r rs ih =>
      rw [List.foldl_cons, ih, List.reverse_cons, nestLets_append]
      rfl

lemma wrap_pass_eq_foldl (attrs : List MeasureRequestAttribute) (expr : Tokens) :
    wrap_pass attrs expr
      = (flatten_requests attrs).foldl (fun i m => Tokens.measure m.ident i) expr := by
  unfold wrap_pass flatten_requests
  induction attrs generalizing expr with
  | nil => rfl
  | cons a rest ih => simp [List.foldl_cons, List.map_cons, ih, List.foldl_append]

lemma bind_pass_eq_foldl (re fn : String) (attrs : List MeasureRequestAttribute)
    (expr : Tokens) :
    bind_pass re fn attrs expr
      = (flatten_requests attrs).foldl
          (fun i m => Tokens.letBind m.field_name re fn m.field_name i) expr := by
  unfold bind_pass flatten_requests
  induction attrs generalizing expr with
  | nil => rfl
  | cons a rest ih => simp [List.foldl_cons, List.map_cons, ih, List.foldl_append]

lemma wrap_pass_eq_nest (attrs : List MeasureRequestAttribute) (expr : Tokens) :
    wrap_pass attrs expr = nestMeasures (flatten_requests attrs).reverse expr := by
  rw [wrap_pass_eq_foldl, foldl_measure_eq_nest]

lemma bind_pass_eq_nest (re fn : String) (attrs : List MeasureRequestAttribute)
    (expr : Tokens) :
    bind_pass re fn attrs expr = nestLets re fn (flatten_requests attrs).reverse expr := by
  rw [bind_pass_eq_foldl, foldl_let_eq_nest]

lemma collectBinds_nestLets (re fn : String) (l : List MetricRequest) (b : Tokens) :
    collectBinds (nestLets re fn l b)
      = l.map (fun m => (m.binding_name, re, fn, m.field_name)) ++ collectBinds b := by
  induction l with
  | nil => rfl
  | cons r rs ih => simp [nestLets, collectBinds, ih]

/-- Split a character list at underscores (the word boundaries that occur in
the repository's snake_case method names). -/
def splitUnderscore : List Char → List (List Char)
  | [] => [[]]
  | c :: cs =>
      let rest := splitUnderscore cs
      if c = '_' then [] :: rest
      else
        match rest with
        | [] => [[c]]
        | s :: ss => (c :: s) :: ss

/-- Uppercase the first character of a word. -/
def capitalizeWord : List Char → List Char
  | [] => []
  | c :: cs => c.toUpper :: cs

/-- Modelled from the spec: the fixed capitalized-word convention used for
generated type names (`heck::CamelCase`, an external crate): capitalize the
first letter of every underscore-separated segment of the method name, e.g.
`fetch_user` becomes `FetchUser`. -/
def to_camel_case (s : String) : String :=
  String.mk ((splitUnderscore s.data).map capitalizeWord).flatten

/-- The sub-registry type name for one method: the registry name concatenated
with the camel-cased method name (`metered.rs` lines 24 and 46). -/
def sub_registry_name (registry_name fun_name : String) : String :=
  registry_name ++ to_camel_case fun_name

/-- Modelled from the spec: the parsed main attribute (`metered_opts.rs`, not
under `src/`): a registry name (used verbatim as the aggregate type name) and
the registry expression at the call site. -/
structure Metered where
  registry_name : String
  registry_expr : String
  deriving Repr, DecidableEq

/-- A method of the annotated impl block: its name, its original body tokens,
and, when it carries the per-method `measure` marker, its ordered list of
parsed annotation instances. -/
structure Method where
  name : String
  body : Tokens
  measure_attrs : Option (List MeasureRequestAttribute)
  deriving Repr, DecidableEq

/-- Modelled from the spec: the ordered method-name-to-attributes map
(`woven_fns`) returned by `aspect_weave::weave_impl_block` (not under `src/`):
one entry per annotated method, in declaration order. -/
def woven_fns (methods : List Method) : List (String × List MeasureRequestAttribute) :=
  methods.filterMap (fun m => m.measure_attrs.map (fun a => (m.name, a)))

/-- The body rewrite performed per annotated method,
`MeteredWeave::update_fn_block` (`metered.rs` lines 90-109): the new block is
`measure_list` applied to the registry expression, the method's identifier,
its attribute instances and its original body tokens. -/
def update_fn_block (metered : Metered) (name : String)
    (attrs : List MeasureRequestAttribute) (body : Tokens) : Tokens :=
  measure_list metered.registry_expr name attrs body

/-- Modelled from the spec: the woven impl block returned by
`aspect_weave::weave_impl_block` (not under `src/`): annotated methods get
their body rewritten by the strategy and their marker stripped, unannotated
methods pass through verbatim, method order is preserved. -/
def weave_block (metered : Metered) (methods : List Method) : List Method :=
  methods.map (fun m =>
    match m.measure_attrs with
    | none => m
    | some attrs =>
        { name := m.name
          body := update_fn_block metered m.name attrs m.body
          measure_attrs := none })

/-- A generated Rust struct: its type name and its ordered fields, each a
(field name, field type name) pair. -/
structure StructDef where
  name : String
  fields : List (String × String)
  deriving Repr, DecidableEq

/-- The aggregate registry struct (`metered.rs` lines 21-40): one field per
woven method, in iteration order, named after the method and typed with the
method's sub-registry type. -/
def aggregate_struct (registry_name : String)
    (measured : List (String × List MeasureRequestAttribute)) : StructDef :=
  { name := registry_name
    fields := measured.map (fun p => (p.1, sub_registry_name registry_name p.1)) }

/-- One sub-registry struct (`metered.rs` lines 44-73): one field per metric
request across all attribute instances of the method, in instance order then
request order, named `ident()` and typed with the request's generated type. -/
def sub_registry_struct (registry_name fun_name : String)
    (attrs : List MeasureRequestAttribute) : StructDef :=
  { name := sub_registry_name registry_name fun_name
    fields := (flatten_requests attrs).map (fun m => (m.ident, m.generated_type)) }

/-- The code-generation half of `metered` (`metered.rs` lines 19-79): the
aggregate struct followed by one sub-registry struct per woven method.  The
generator is total: it performs no collision check of any kind. -/
def metered_gen (registry_name : String)
    (measured : List (String × List MeasureRequestAttribute)) :
    StructDef × List StructDef :=
  (aggregate_struct registry_name measured,
   measured.map (fun p => sub_registry_struct registry_name p.1 p.2))

/-- The whole macro (`metered.rs` lines 10-84): weave the impl block, then
emit it followed by the generated registry structs. -/
def metered (m : Metered) (methods : List Method) :
    List Method × StructDef × List StructDef :=
  (weave_block m methods, metered_gen m.registry_name (woven_fns methods))

lemma woven_fns_eq_filter (methods : List Method) :
    woven_fns methods
      = (methods.filter (fun me => me.measure_attrs.isSome)).map
          (fun me => (me.name, me.measure_attrs.getD [])) := by
  induction methods with
  | nil => rfl
  | cons m rest ih =>
      cases h : m.measure_attrs with
      | none => simpa [woven_fns, List.filterMap_cons, List.filter_cons, h] using ih
      | some a => simpa [woven_fns, List.filterMap_cons, List.filter_cons, h] using ih

/-- Clamp a value into the closed interval from `lo` to `hi`. -/
def clamp (lo hi v : Nat) : Nat := max lo (min hi v)

/-- The histogram state (`hdr_histogram.rs` lines 38-40): the wrapped
`hdrhistogram::Histogram` is modelled by its construction bounds, its number
of significant digits, and the multiset of recorded (already clamped) samples,
most recent first. -/
structure HdrHistogram where
  lowest : Nat
  highest : Nat
  sigfig : Nat
  values : List Nat
  deriving Repr, DecidableEq

/-- Modelled from the spec: `hdrhistogram::Histogram::saturating_record` (an
external crate): every sample is accepted, clamped (saturated) into the
histogram's representable range rather than rejected. -/
def HdrHistogram.saturating_record (h : HdrHistogram) (v : Nat) : HdrHistogram :=
  { h with values := clamp h.lowest h.highest v :: h.values }

/-- `HdrHistogram::record` (`hdr_histogram.rs` lines 42-48): delegates to the
library's saturating recording. -/
def HdrHistogram.record (h : HdrHistogram) (v : Nat) : HdrHistogram :=
  h.saturating_record v

/-- `HdrHistogram::default` (`hdr_histogram.rs` lines 98-108): bounds 1 to
`5 * 60 * 1000` (latencies of 1 ms to 5 minutes), 2 significant digits, no
samples. -/
def HdrHistogram.default : HdrHistogram :=
  { lowest := 1, highest := 5 * 60 * 1000, sigfig := 2, values := [] }

/-- Modelled from the spec: the library's sample-count query `len()`. -/
def HdrHistogram.len (h : HdrHistogram) : Nat := h.values.length

/-- Modelled from the spec: the library's minimum query `min()` (0 when the
histogram is empty). -/
def HdrHistogram.hmin (h : HdrHistogram) : Nat :=
  match h.values with
  | [] => 0
  | v :: vs => vs.foldl Nat.min v

/-- Modelled from the spec: the library's maximum query `max()` (0 when the
histogram is empty). -/
def HdrHistogram.hmax (h : HdrHistogram) : Nat :=
  h.values.foldl Nat.max 0

/-- Modelled from the spec: the library's arithmetic-mean query `mean()`. -/
def HdrHistogram.mean (h : HdrHistogram) : ℚ :=
  if h.values.length = 0 then 0 else (h.values.sum : ℚ) / (h.values.length : ℚ)

/-- Modelled from the spec: the variance of the recorded samples; the
library's `stdev()` is its square root. -/
def HdrHistogram.variance (h : HdrHistogram) : ℚ :=
  if h.values.length = 0 then 0
  else (h.values.map (fun v => ((v : ℚ) - h.mean) ^ 2)).sum / (h.values.length : ℚ)

/-- Insert a value into an already sorted list of samples. -/
def insertSorted (x : Nat) : List Nat → List Nat
  | [] => [x]
  | y :: ys => if x ≤ y then x :: y :: ys else y :: insertSorted x ys

/-- Sort a list of samples in nondecreasing order. -/
def sortNat (l : List Nat) : List Nat := l.foldr insertSorted []

/-- Modelled from the spec: the library's percentile query
`value_at_percentile(p)` — the smallest recorded value whose cumulative count
reaches p per cent of the samples (0 when empty). -/
def HdrHistogram.value_at_percentile (h : HdrHistogram) (p : ℚ) : Nat :=
  let n := h.values.length
  if n = 0 then 0
  else
    let rank := min n (max 1 (Int.toNat (Int.ceil (p * (n : ℚ) / 100))))
    (sortNat h.values).getD (rank - 1) 0

/-- A value in the serialized summary: sample counts and clamped samples are
naturals, the mean is a rational, and the standard deviation is kept symbolic
as the square root of the (rational) variance. -/
inductive SValue where
  | nat (n : Nat)
  | rat (q : ℚ)
  | sqrtOf (q : ℚ)
  deriving DecidableEq

/-- `HdrHistogram`'s `Serialize` impl (`hdr_histogram.rs` lines 50-73): a
ten-entry map, in source order, of read-only queries against the state. -/
def HdrHistogram.serialize (h : HdrHistogram) : List (String × SValue) :=
  [("samples", SValue.nat h.len),
   ("min", SValue.nat h.hmin),
   ("max", SValue.nat h.hmax),
   ("mean", SValue.rat h.mean),
   ("stdev", SValue.sqrtOf h.variance),
   ("90%ile", SValue.nat (h.value_at_percentile 90)),
   ("95%ile", SValue.nat (h.value_at_percentile 95)),
   ("99%ile", SValue.nat (h.value_at_percentile 99)),
   ("99.9ile", SValue.nat (h.value_at_percentile (999 / 10))),
   ("99.99ile", SValue.nat (h.value_at_percentile (9999 / 100)))]

/-- The state of the exclusive-access guard: free, or held by a mutation
(an in-flight `record` inside its critical section). -/
inductive Guard where
  | free
  | mutHeld
  deriving Repr, DecidableEq

/-- The run-time contention failure: the guard was found already held. -/
inductive MetricContentionFailure where
  | contention
  deriving Repr, DecidableEq

/-- `AtomicHdrHistogram` (`hdr_histogram.rs` lines 6-9): the histogram behind
the exclusive-access cell, with the guard state made explicit. -/
structure AtomicHdrHistogram where
  guard : Guard
  inner : HdrHistogram
  deriving Repr, DecidableEq

/-- `AtomicHdrHistogram::record` (`hdr_histogram.rs` lines 11-15).  Modelled
from the spec: `AtomicRefCell::borrow_mut` (an external crate) fails
immediately — it never blocks — when the guard is already held, and otherwise
grants exclusive access for the one increment. -/
def AtomicHdrHistogram.record (a : AtomicHdrHistogram) (v : Nat) :
    Except MetricContentionFailure AtomicHdrHistogram :=
  match a.guard with
  | Guard.mutHeld => Except.error MetricContentionFailure.contention
  | Guard.free => Except.ok { a with inner := a.inner.record v }

/-- `AtomicHdrHistogram`'s `Serialize` impl (`hdr_histogram.rs` lines 17-27).
Modelled from the spec: `AtomicRefCell::borrow` fails immediately when the
guard is held by an in-flight mutation; the serialization itself is the inner
histogram's read-only summary. -/
def AtomicHdrHistogram.serializeOp (a : AtomicHdrHistogram) :
    Except MetricContentionFailure (List (String × SValue)) :=
  match a.guard with
  | Guard.mutHeld => Except.error MetricContentionFailure.contention
  | Guard.free => Except.ok a.inner.serialize

/-- `AtomicHdrHistogram`'s derived `Default` (`hdr_histogram.rs` line 6): a
free guard around the default histogram. -/
def AtomicHdrHistogram.default : AtomicHdrHistogram :=
  { guard := Guard.free, inner := HdrHistogram.default }

/-- A sequence of `record` calls whose critical sections do not overlap:
each call runs to completion before the next starts. -/
def recordAll (a : AtomicHdrHistogram) :
    List Nat → Except MetricContentionFailure AtomicHdrHistogram
  | [] => Except.ok a
  | v :: vs =>
      match a.record v with
      | Except.error e => Except.error e
      | Except.ok a2 => recordAll a2 vs

lemma recordAll_free (h : HdrHistogram) (vs : List Nat) :
    ∃ h2 : HdrHistogram,
      recordAll ⟨Guard.free, h⟩ vs = Except.ok ⟨Guard.free, h2⟩ ∧
        h2.values.length = h.values.length + vs.length := by
  induction vs generalizing h with
  | nil => exact ⟨h, rfl, by simp⟩
  | cons v vs ih =>
      obtain ⟨h2, hrec, hlen⟩ := ih (h.record v)
      refine ⟨h2, ?_, ?_⟩
      · simpa [recordAll, AtomicHdrHistogram.record] using hrec
      · have hv : (h.record v).values.length = h.values.length + 1 := by
          simp [HdrHistogram.record, HdrHistogram.saturating_record]
        simp only [List.length_cons]
        omega

/-- The number of brace blocks along a token stream. -/
def countBraces : Tokens → Nat
  | Tokens.atom _ => 0
  | Tokens.measure _ i => countBraces i
  | Tokens.letBind _ _ _ _ i => countBraces i
  | Tokens.braces i => countBraces i + 1

lemma countBraces_nestMeasures (l : List MetricRequest) (b : Tokens) :
    countBraces (nestMeasures l b) = countBraces b := by
  induction l with
  | nil => rfl
  | cons r rs ih => simp [nestMeasures, countBraces, ih]

lemma countBraces_nestLets (re fn : String) (l : List MetricRequest) (b : Tokens) :
    countBraces (nestLets re fn l b) = countBraces b := by
  induction l with
  | nil => rfl
  | cons r rs ih => simp [nestLets, countBraces, ih]

/-- C1: for a method whose metric requests, in declaration order (instance
order, then request order within an instance), are r1, ..., rn, the rewritten
body nests the measure wrappers with rn outermost and r1 innermost around the
original body; in particular requests [timer, counter] wrap the body as
`measure(counter, measure(timer, body))`. -/
theorem measure_wrap_declaration_order (re fn : String)
    (attrs : List MeasureRequestAttribute) (expr : Tokens) :
    measure_list re fn attrs expr
        = Tokens.braces
            (bind_pass re fn attrs (nestMeasures (flatten_requests attrs).reverse expr)) ∧
      wrap_pass [⟨[⟨"timer", "T"⟩, ⟨"counter", "C"⟩]⟩] (Tokens.atom "body")
        = Tokens.measure "counter" (Tokens.measure "timer" (Tokens.atom "body")) := by
  constructor
  · rw [measure_list, wrap_pass_eq_nest]
  · decide

/-- C2 counterexample: for the request list [timer, counter] the bind pass
does NOT put the earlier-declared metric's binding outermost — the produced
body binds `counter` outermost and `timer` innermost, not the other way
round. -/
theorem bind_order_claim_counterexample :
    measure_list "self.stats" "fetch" [⟨[⟨"timer", "T"⟩, ⟨"counter", "C"⟩]⟩]
        (Tokens.atom "body")
      = Tokens.braces
          (Tokens.letBind "counter" "self.stats" "fetch" "counter"
            (Tokens.letBind "timer" "self.stats" "fetch" "timer"
              (Tokens.measure "counter" (Tokens.measure "timer" (Tokens.atom "body"))))) ∧
      measure_list "self.stats" "fetch" [⟨[⟨"timer", "T"⟩, ⟨"counter", "C"⟩]⟩]
        (Tokens.atom "body")
      ≠ Tokens.braces
          (Tokens.letBind "timer" "self.stats" "fetch" "timer"
            (Tokens.letBind "counter" "self.stats" "fetch" "counter"
              (Tokens.measure "counter" (Tokens.measure "timer" (Tokens.atom "body"))))) := by
  decide

/-- C2 amended: the bind pass places the bindings so that each LATER-declared
metric's binding scope encloses all earlier-declared metrics' bindings and the
wrapped body — rn's binding scope is outermost and r1's is innermost (every
binding still encloses the whole wrap chain). -/
theorem bind_order_later_outermost (re fn : String)
    (attrs : List MeasureRequestAttribute) (expr : Tokens) :
    measure_list re fn attrs expr
      = Tokens.braces
          (nestLets re fn (flatten_requests attrs).reverse (wrap_pass attrs expr)) := by
  rw [measure_list, bind_pass_eq_nest]

/-- C3: for an input with M annotated methods, weaving followed by code
generation produces exactly M sub-registry structs plus the one aggregate
struct; the aggregate has exactly M fields, in method declaration order, each
named after its method and typed with that method's sub-registry type name. -/
theorem weave_generate_shape (m : Metered) (methods : List Method) :
    ((metered m methods).2.2).length
        = (methods.filter (fun me => me.measure_attrs.isSome)).length ∧
      ((metered m methods).2.1).fields.length
        = (methods.filter (fun me => me.measure_attrs.isSome)).length ∧
      ((metered m methods).2.1).fields
        = (methods.filter (fun me => me.measure_attrs.isSome)).map
            (fun me => (me.name, sub_registry_name m.registry_name me.name)) ∧
      ((metered m methods).2.2).map StructDef.name
        = (methods.filter (fun me => me.measure_attrs.isSome)).map
            (fun me => sub_registry_name m.registry_name me.name) := by
  refine ⟨?_, ?_, ?_, ?_⟩ <;>
    simp [metered, metered_gen, aggregate_struct, sub_registry_struct,
      woven_fns_eq_filter, List.map_map, Function.comp]

/-- C4 counterexample: two requests on one method with the same field name
`foo` do not make generation fail — the generator is a total function and
emits the full output, with the sub-registry struct carrying the field `foo`
twice; no `GenerationCollisionError` exists anywhere in the generator. -/
theorem generation_collision_unchecked :
    metered_gen "Stats" [("fetch", [⟨[⟨"foo", "Ty1"⟩, ⟨"foo", "Ty2"⟩]⟩])]
      = (⟨"Stats", [("fetch", "StatsFetch")]⟩,
         [⟨"StatsFetch", [("foo", "Ty1"), ("foo", "Ty2")]⟩]) := by
  decide

/-- C4 amended: duplicate field names within one method's requests are not
rejected; generation always succeeds and every request contributes its field
to the sub-registry struct with its multiplicity preserved, so a duplicated
name appears duplicated in the emitted struct (the collision is only caught
later, outside this code, when the generated struct is compiled). -/
theorem generation_keeps_duplicate_fields (rn fn nm : String)
    (attrs : List MeasureRequestAttribute) :
    ((sub_registry_struct rn fn attrs).fields.map Prod.fst).count nm
      = ((flatten_requests attrs).map MetricRequest.field_name).count nm := by
  simp only [sub_registry_struct, List.map_map]
  rfl

/-- C5: the aggregate struct is named with `registry_name` verbatim, and each
sub-registry struct is named with `registry_name` concatenated with the
camel-cased method name; in particular registry name `Metrics` and method
`fetch_user` yield `MetricsFetchUser`. -/
theorem generated_type_naming (rn : String)
    (measured : List (String × List MeasureRequestAttribute)) :
    (metered_gen rn measured).1.name = rn ∧
      ((metered_gen rn measured).2.map StructDef.name)
        = measured.map (fun p => rn ++ to_camel_case p.1) ∧
      sub_registry_name "Metrics" "fetch_user" = "MetricsFetchUser" := by
  refine ⟨rfl, ?_, by decide⟩
  simp [metered_gen, sub_registry_struct, sub_registry_name, List.map_map, Function.comp]

/-- C6: `record` clamps every sample into the range 1 to 300000 fixed by
default construction (2 significant digits, not configurable afterwards) and
records the clamped value, never rejecting: `record 0` and `record 1` produce
the same state (both record 1) and `record 1000000` records 300000. -/
theorem record_clamps_range (v : Nat) (h : HdrHistogram) :
    1 ≤ clamp 1 300000 v ∧
      clamp 1 300000 v ≤ 300000 ∧
      (HdrHistogram.default.record v).values = [clamp 1 300000 v] ∧
      (h.record v).values = clamp h.lowest h.highest v :: h.values ∧
      HdrHistogram.default.record 0 = HdrHistogram.default.record 1 ∧
      (HdrHistogram.default.record 1000000).values = [300000] ∧
      (h.record v).lowest = h.lowest ∧
      (h.record v).highest = h.highest ∧
      (h.record v).sigfig = h.sigfig ∧
      HdrHistogram.default.lowest = 1 ∧
      HdrHistogram.default.highest = 300000 ∧
      HdrHistogram.default.sigfig = 2 := by
  refine ⟨?_, ?_, rfl, rfl, by decide, by decide, rfl, rfl, rfl, rfl, rfl, rfl⟩
  · simp [clamp]
  · simp [clamp]

/-- C7: `serialize` produces exactly ten entries, in this fixed order: sample
count, minimum, maximum, arithmetic mean, standard deviation, then the 90th,
95th, 99th, 99.9th and 99.99th percentile values — all read-only queries of
the input state (serialization is a pure function of the histogram and leaves
it unchanged). -/
theorem serialize_fixed_order (h : HdrHistogram) :
    h.serialize.length = 10 ∧
      h.serialize.map Prod.fst
        = ["samples", "min", "max", "mean", "stdev",
           "90%ile", "95%ile", "99%ile", "99.9ile", "99.99ile"] ∧
      h.serialize.map Prod.snd
        = [SValue.nat h.len, SValue.nat h.hmin, SValue.nat h.hmax,
           SValue.rat h.mean, SValue.sqrtOf h.variance,
           SValue.nat (h.value_at_percentile 90),
           SValue.nat (h.value_at_percentile 95),
           SValue.nat (h.value_at_percentile 99),
           SValue.nat (h.value_at_percentile (999 / 10)),
           SValue.nat (h.value_at_percentile (9999 / 100))] ∧
      AtomicHdrHistogram.serializeOp ⟨Guard.free, h⟩ = Except.ok h.serialize := by
  exact ⟨rfl, rfl, rfl, rfl⟩

/-- C8: every local binding introduced by the bind pass aliases the request's
binding name to the field reached through `registry_expression.method.field`;
in particular both metrics of a method `fetch` with registry expression
`self.stats` are bound from `self.stats.fetch.hit_count` and
`self.stats.fetch.latency`. -/
theorem bind_alias_registry_path (re fn : String)
    (attrs : List MeasureRequestAttribute) (expr : Tokens) :
    collectBinds (measure_list re fn attrs expr)
        = (flatten_requests attrs).reverse.map
            (fun m => (m.binding_name, re, fn, m.field_name))
          ++ collectBinds (wrap_pass attrs expr) ∧
      collectBinds (measure_list "self.stats" "fetch"
          [⟨[⟨"hit_count", "Counter"⟩, ⟨"latency", "Histo"⟩]⟩] (Tokens.atom "b"))
        = [("latency", "self.stats", "fetch", "latency"),
           ("hit_count", "self.stats", "fetch", "hit_count")] := by
  constructor
  · rw [measure_list, bind_pass_eq_nest]
    simpa [collectBinds] using
      collectBinds_nestLets re fn (flatten_requests attrs).reverse (wrap_pass attrs expr)
  · decide

/-- C9: a `record` or serialize call that finds the exclusive-access guard
held by a concurrent record in its critical section fails immediately with
the contention error (no blocking, no state corruption), while any sequence
of `record` calls with non-overlapping critical sections all succeed and the
final sample count equals the number of calls — no lost updates. -/
theorem guard_fast_fail_no_lost_updates (inner h : HdrHistogram) (v : Nat)
    (vs : List Nat) :
    AtomicHdrHistogram.record ⟨Guard.mutHeld, inner⟩ v
        = Except.error MetricContentionFailure.contention ∧
      AtomicHdrHistogram.serializeOp ⟨Guard.mutHeld, inner⟩
        = Except.error MetricContentionFailure.contention ∧
      (∃ h2 : HdrHistogram,
        recordAll ⟨Guard.free, h⟩ vs = Except.ok ⟨Guard.free, h2⟩ ∧
          h2.values.length = h.values.length + vs.length) ∧
      (∃ h2 : HdrHistogram,
        recordAll AtomicHdrHistogram.default vs = Except.ok ⟨Guard.free, h2⟩ ∧
          h2.len = vs.length) := by
  refine ⟨rfl, rfl, recordAll_free h vs, ?_⟩
  obtain ⟨h2, hrec, hlen⟩ := recordAll_free HdrHistogram.default vs
  exact ⟨h2, hrec, by simpa [HdrHistogram.len, HdrHistogram.default] using hlen⟩

/-- C10: the rewritten body is the generated statement sequence enclosed in
exactly one extra brace block (the wrap and bind passes add no braces of
their own), and a method whose attribute instances expand to zero metric
requests gets exactly its original body in one extra brace block, otherwise
unchanged. -/
theorem rewritten_body_single_extra_brace (re fn : String)
    (attrs attrs2 : List MeasureRequestAttribute) (expr : Tokens)
    (hempty : flatten_requests attrs = []) :
    measure_list re fn attrs expr = Tokens.braces expr ∧
      measure_list re fn attrs2 expr
        = Tokens.braces (bind_pass re fn attrs2 (wrap_pass attrs2 expr)) ∧
      countBraces (measure_list re fn attrs2 expr) = countBraces expr + 1 := by
  refine ⟨?_, rfl, ?_⟩
  · rw [measure_list, bind_pass_eq_nest, wrap_pass_eq_nest, hempty]
    rfl
  · rw [measure_list, bind_pass_eq_nest, wrap_pass_eq_nest]
    simp [countBraces, countBraces_nestLets, countBraces_nestMeasures]

/-- C10 witness: the zero-request case at a concrete input — one annotation
instance with no requests leaves the body unchanged inside one brace block. -/
theorem rewritten_body_single_extra_brace_witness :
    measure_list "self.stats" "fetch" [⟨[]⟩] (Tokens.atom "b")
        = Tokens.braces (Tokens.atom "b") ∧
      measure_list "self.stats" "fetch" [⟨[⟨"c", "C"⟩]⟩] (Tokens.atom "b")
        = Tokens.braces
            (bind_pass "self.stats" "fetch" [⟨[⟨"c", "C"⟩]⟩]
              (wrap_pass [⟨[⟨"c", "C"⟩]⟩] (Tokens.atom "b"))) ∧
      countBraces (measure_list "self.stats" "fetch" [⟨[⟨"c", "C"⟩]⟩] (Tokens.atom "b"))
        = countBraces (Tokens.atom "b") + 1 :=
  rewritten_body_single_extra_brace "self.stats" "fetch" [⟨[]⟩] [⟨[⟨"c", "C"⟩]⟩]
    (Tokens.atom "b") rfl

end MeteredRs
